import Mathlib

/-!
A verification development for the `lazyaider` terminal productivity wrapper.

The Python sources are shallowly embedded: pure text processing is translated
to functions over `String` / `List Char` (Python string indices are code-point
indices, matching `List Char` positions); the mutable YAML-backed settings
dictionary is translated to explicit state passing over association lists; the
tmux process bridge is modelled by the ordered list of key payloads handed to
`send_keys_to_pane`; filesystem existence checks and the LLM call outcome are
parameters of the corresponding functions.
-/

set_option autoImplicit false

namespace LazyAider

/-! ## Python string primitives

Helpers mirroring the Python `str` methods used by the sources.  Python
whitespace for `str.strip()` / `\s` is modelled by its ASCII subset, which is
all that the configuration and plan texts exercise. -/

/-- The ASCII whitespace characters recognised by Python `str.strip()`. -/
def pyIsSpace (c : Char) : Bool :=
  c = ' ' || c = '\t' || c = '\n' || c = '\r' || c = '\x0b' || c = '\x0c'

/-- Drop characters satisfying `p` from both ends of a list. -/
def stripWhile (p : Char → Bool) (cs : List Char) : List Char :=
  ((cs.dropWhile p).reverse.dropWhile p).reverse

/-- Python `str.strip()` on a character list. -/
def pyStrip (cs : List Char) : List Char :=
  stripWhile pyIsSpace cs

/-- Python `str.strip()` on a `String`. -/
def pyStripStr (s : String) : String :=
  ⟨pyStrip s.toList⟩

/-- Python `str.strip('-')` and friends: strip one given character. -/
def stripChar (t : Char) (cs : List Char) : List Char :=
  stripWhile (· == t) cs

/-- Split a text at every newline (one more piece than newlines). -/
def splitOnNewline : List Char → List (List Char)
  | [] => [[]]
  | c :: rest =>
    if c = '\n' then [] :: splitOnNewline rest
    else
      match splitOnNewline rest with
      | [] => [[c]]
      | l :: ls => (c :: l) :: ls

/-- Python `str.splitlines()` restricted to `'\n'` separators (the only line
separator produced by this code base): like splitting on newlines, but with
no trailing empty line. -/
def pySplitlines (cs : List Char) : List (List Char) :=
  if cs = [] then []
  else
    let parts := splitOnNewline cs
    if cs.getLast? = some '\n' then parts.dropLast else parts

/-- Python `s.split(sep, 1)`: the text before the first occurrence of `sep`,
and, when `sep` occurs, the text after that occurrence. -/
def splitOnFirst (sep : List Char) : List Char → List Char × Option (List Char)
  | [] => if sep.isPrefixOf ([] : List Char) then ([], some []) else ([], none)
  | c :: cs =>
    if sep.isPrefixOf (c :: cs) then ([], some ((c :: cs).drop sep.length))
    else
      let r := splitOnFirst sep cs
      (c :: r.1, r.2)

/-- Whether `sep` occurs as a contiguous subsequence of `cs`. -/
def containsSeq (sep : List Char) : List Char → Bool
  | [] => sep.isPrefixOf ([] : List Char)
  | c :: cs => sep.isPrefixOf (c :: cs) || containsSeq sep cs

/-- The double-newline separator used by the section chunk splitter. -/
def doubleNewline : List Char := ['\n', '\n']

/-! ## `lazyaider/sidebar.py`: section parsing -/

/-- `Sidebar._parse_section_content_chunks`: split a section body into the
`files_md` chunk (before the first `"\n\n"` of the stripped body) and the
`prompt_content` chunk (after it, or `""` when no double newline exists). -/
def parse_section_content_chunks (section_content : String) : String × String :=
  match splitOnFirst doubleNewline (pyStrip section_content.toList) with
  | (files_md, some prompt_content) => (⟨files_md⟩, ⟨prompt_content⟩)
  | (files_md, none) => (⟨files_md⟩, "")

/-! ## `lazyaider/config.py`: typed settings state and watermark accessors

`load_config` (modelled separately below on raw YAML values) coerces the
settings file into a fixed shape: `managed_sessions` maps session names to
per-session dictionaries, each holding an optional `active_plan_name` and a
`plan_progress` dictionary mapping plan names to dictionaries with an optional
integer `last_aider_step`.  The mutators below operate on that typed shape;
Python dictionaries keyed by strings are explicit association lists with
insertion-order assignment semantics (assigning an existing key keeps its
position, a new key is appended). -/

/-- `d.get(k)` / `d[k]` lookup on an insertion-ordered dictionary. -/
def dictGet {α : Type} (l : List (String × α)) (k : String) : Option α :=
  match l with
  | [] => none
  | (k', v) :: rest => if k' = k then some v else dictGet rest k

/-- `d[k] = v`: replace the value at `k` in place, or append a new entry. -/
def dictSet {α : Type} (l : List (String × α)) (k : String) (v : α) :
    List (String × α) :=
  match l with
  | [] => [(k, v)]
  | (k', v') :: rest => if k' = k then (k', v) :: rest else (k', v') :: dictSet rest k v

/-- `d.setdefault(k, v)`: insert `v` at `k` only when `k` is absent. -/
def dictSetdefault {α : Type} (l : List (String × α)) (k : String) (v : α) :
    List (String × α) :=
  match dictGet l k with
  | some _ => l
  | none => l ++ [(k, v)]

/-- The per-plan progress dictionary (`plan_progress[plan_name]`): its only
recognised key is `last_aider_step`; `none` stands for an absent key (or the
`None` value `load_config` coerces bad entries to, which the accessors treat
identically). -/
structure PlanProgressEntry where
  last_aider_step : Option Int := none
deriving Repr, DecidableEq

/-- A per-session settings dictionary inside `managed_sessions`. -/
structure SessionSettings where
  active_plan_name : Option String := none
  plan_progress : List (String × PlanProgressEntry) := []
deriving Repr, DecidableEq

/-- The process-wide `settings` mapping (the slice the watermark code uses). -/
structure Settings where
  managed_sessions : List (String × SessionSettings) := []
deriving Repr, DecidableEq

/-- `config.update_session_last_aider_step`: record `step_index` as the last
Aider step of `(session_name, plan_name)`.  Returns the new in-memory settings
and whether `save_config` was called.  Python's empty-string/`None` session or
plan name is the falsy guard of the source; the `setdefault` chain mutates the
nested dictionaries in place, which the functional write-back reproduces. -/
def update_session_last_aider_step (st : Settings) (session_name plan_name : String)
    (step_index : Option Int) : Settings × Bool :=
  if session_name = "" ∨ plan_name = "" then (st, false)
  else
    let managed_sessions := dictSetdefault st.managed_sessions session_name {}
    let session_settings := (dictGet managed_sessions session_name).getD {}
    let plan_progress := dictSetdefault session_settings.plan_progress plan_name {}
    let plan_specific_progress := (dictGet plan_progress plan_name).getD {}
    let current_step := plan_specific_progress.last_aider_step
    if current_step = step_index then
      let session_settings := { session_settings with plan_progress := plan_progress }
      ({ managed_sessions := dictSet managed_sessions session_name session_settings }, false)
    else
      let plan_specific_progress := { plan_specific_progress with last_aider_step := step_index }
      let plan_progress := dictSet plan_progress plan_name plan_specific_progress
      let session_settings := { session_settings with plan_progress := plan_progress }
      ({ managed_sessions := dictSet managed_sessions session_name session_settings }, true)

/-- `config.get_session_last_aider_step`: read the watermark back; any
`KeyError` in the lookup chain yields `None`.  The function only reads the
settings mapping. -/
def get_session_last_aider_step (st : Settings) (session_name plan_name : String) :
    Option Int :=
  if session_name = "" ∨ plan_name = "" then none
  else
    match dictGet st.managed_sessions session_name with
    | none => none
    | some session_settings =>
      match dictGet session_settings.plan_progress plan_name with
      | none => none
      | some plan_specific_progress => plan_specific_progress.last_aider_step

/-! ## `lazyaider/sidebar.py`: plan section extraction and the send protocol -/

/-- Start positions of the matches of `re.finditer(r"^## .*", content,
re.MULTILINE)`: positions that begin a line (start of text or right after a
newline) where `"## "` follows.  Matches cannot overlap because a match runs to
the end of its line. -/
def headerStarts (cs : List Char) : List Nat :=
  (List.range cs.length).filter fun i =>
    (i == 0 || (cs.getD (i - 1) ' ') == '\n') && "## ".toList.isPrefixOf (cs.drop i)

/-- End position of the regex match starting at `i`: the next newline (the
regex `.` does not cross lines) or the end of the text. -/
def lineEnd (cs : List Char) (i : Nat) : Nat :=
  i + ((cs.drop i).takeWhile (· ≠ '\n')).length

/-- The number of plan sections, i.e. of `## ` headers
(`Sidebar._parse_markdown_sections` returns one title per header). -/
def num_sections (content : String) : Nat :=
  (headerStarts content.toList).length

/-- `Sidebar._get_section_content_by_index`: the stripped text between the end
of the indexed `## ` header line and the start of the next header (or the end
of the document); `none` on an out-of-bounds index (the logged bounds error). -/
def get_section_content_by_index (content : String) (section_index : Nat) :
    Option String :=
  let cs := content.toList
  let headers := headerStarts cs
  if section_index < headers.length then
    let content_start_pos := lineEnd cs (headers.getD section_index 0)
    let content_end_pos :=
      if section_index + 1 < headers.length then headers.getD (section_index + 1) 0
      else cs.length
    some ⟨pyStrip ((cs.drop content_start_pos).take (content_end_pos - content_start_pos))⟩
  else
    none

/-- Insert a string into an ascending duplicate-free list, keeping it so
(the model of Python `sorted(list(set(...)))`). -/
def insertSortedUnique (s : String) : List String → List String
  | [] => [s]
  | t :: ts =>
    if s = t then t :: ts
    else if s < t then s :: t :: ts
    else t :: insertSortedUnique s ts

/-- `Sidebar._extract_file_paths`: bullet-list lines (`- ` or `* ` after
stripping) of the text, with one surrounding backtick pair removed, collected
as a sorted duplicate-free list. -/
def extract_file_paths (text : String) : List String :=
  let candidates := (pySplitlines text.toList).filterMap fun line =>
    let stripped_line := pyStrip line
    if "- ".toList.isPrefixOf stripped_line || "* ".toList.isPrefixOf stripped_line then
      let path_candidate := pyStrip (stripped_line.drop 2)
      let path_candidate :=
        if path_candidate.headD ' ' = '`' ∧ path_candidate.getLastD ' ' = '`' then
          (path_candidate.drop 1).dropLast
        else path_candidate
      if path_candidate ≠ [] then some (⟨path_candidate⟩ : String) else none
    else none
  candidates.foldl (fun acc s => insertSortedUnique s acc) []

/-- Result of one section-send action of `Sidebar.on_button_pressed`:
the ordered key payloads handed to `tmux_utils.send_keys_to_pane` on the
target pane, whether the action failed with the bounds error, and the settings
after the watermark update (if any). -/
structure SendResult where
  sent_keys : List String
  bounds_error : Bool
  settings : Settings
deriving Repr, DecidableEq

/-- The `plan_sec_<i>_<action>` branch of `Sidebar.on_button_pressed` for
`action ∈ {ask, code, arch}`, assuming a target pane and loaded plan content.
`file_exists` models `Path(p).exists() and Path(p).is_file()`, `use_reset` the
`Use /reset` switch, and `tag_id` the random 8-digit tag.  Process-bridge calls
are assumed to succeed (a raised exception would only truncate the trace).
The watermark is written through `update_session_last_aider_step` exactly when
a non-empty prompt was submitted and both names are non-empty (truthy). -/
def send_plan_section (content : String) (section_index : Nat) (action_type : String)
    (use_reset : Bool) (file_exists : String → Bool) (tag_id : String)
    (st : Settings) (session_name plan_name : String) : SendResult :=
  match get_section_content_by_index content section_index with
  | none => { sent_keys := [], bounds_error := true, settings := st }
  | some section_content =>
    let chunks := parse_section_content_chunks section_content
    let files_md_chunk := chunks.1
    let prompt_chunk := chunks.2
    let reset_keys : List String := if use_reset then ["/reset", "Enter"] else []
    let potential_file_paths := extract_file_paths files_md_chunk
    let existing_files := potential_file_paths.filter file_exists
    let add_keys : List String :=
      if existing_files ≠ [] then
        ["/add " ++ String.intercalate " " existing_files, "Enter"]
      else []
    let action_head := pyStripStr ("/" ++ action_type ++ " ")
    let full_prompt_content := pyStripStr prompt_chunk
    if full_prompt_content = "" then
      { sent_keys := reset_keys ++ add_keys ++ [action_head, "Enter"],
        bounds_error := false, settings := st }
    else
      let opening_tag := "\x7btag" ++ tag_id
      let closing_tag := "tag" ++ tag_id ++ "\x7d"
      let content_to_send := action_head ++ " " ++ full_prompt_content
      let st' :=
        if session_name ≠ "" ∧ plan_name ≠ "" then
          (update_session_last_aider_step st session_name plan_name
            (some (Int.ofNat section_index))).1
        else st
      { sent_keys := reset_keys ++ add_keys ++
          [opening_tag, "Enter", content_to_send, "Enter", closing_tag, "Enter"],
        bounds_error := false, settings := st' }

/-! ## `lazyaider/plan_generator.py`: plan title, slug and saved layout -/

/-- The characters kept by `re.sub(r'[^a-z0-9\-]', '', text)`. -/
def isSlugChar (c : Char) : Bool :=
  ('a' ≤ c && c ≤ 'z') || ('0' ≤ c && c ≤ '9') || c == '-'

/-- Worker for `replaceRuns`: `in_run` records whether the previous character
belonged to the class being replaced. -/
def replaceRunsGo (p : Char → Bool) (r : Char) : Bool → List Char → List Char
  | _, [] => []
  | in_run, c :: cs =>
    if p c then
      if in_run then replaceRunsGo p r true cs
      else r :: replaceRunsGo p r true cs
    else c :: replaceRunsGo p r false cs

/-- `re.sub(p+, r, text)` for a character class `p`: replace every maximal run
of characters satisfying `p` by the single character `r`. -/
def replaceRuns (p : Char → Bool) (r : Char) (cs : List Char) : List Char :=
  replaceRunsGo p r false cs

/-- `plan_generator._sanitize_for_path`: lower-case, whitespace runs to
hyphens, drop everything outside `[a-z0-9-]`, collapse hyphen runs, strip edge
hyphens, and fall back to `"default-plan-title"` when nothing remains.
(`str.lower()` is modelled by `Char.toLower`; the two agree on ASCII, and the
following filter discards every non-ASCII character either way.) -/
def _sanitize_for_path (text : String) : String :=
  let t := text.toList.map Char.toLower
  let t := replaceRuns pyIsSpace '-' t
  let t := t.filter isSlugChar
  let t := replaceRuns (· == '-') '-' t
  let t := stripChar '-' t
  if t = [] then "default-plan-title" else ⟨t⟩

/-- No two adjacent hyphens occur in the list (the slug shape the hyphen-run
collapse establishes). -/
def noAdjHyphens : List Char → Bool
  | [] => true
  | a :: t => !(a == '-' && t.headD ' ' == '-') && noAdjHyphens t

/-- Loop body of `plan_generator._extract_plan_title` over the lines. -/
def extract_plan_title_go : List (List Char) → String
  | [] => "untitled-plan"
  | line :: rest =>
    let stripped_line := pyStrip line
    if "# ".toList.isPrefixOf stripped_line then
      let title := pyStrip (stripped_line.drop 2)
      if title ≠ [] then ⟨title⟩ else extract_plan_title_go rest
    else extract_plan_title_go rest

/-- `plan_generator._extract_plan_title`: the text of the first `# ` heading
with a non-empty title, else `"untitled-plan"`. -/
def _extract_plan_title (markdown_content : String) : String :=
  extract_plan_title_go (pySplitlines markdown_content.toList)

/-- `plan_generator.lazyaider_DIR_NAME`. -/
def lazyaider_DIR_NAME : String := ".lazyaider"

/-- `plan_generator.PLANS_SUBDIR_NAME`. -/
def PLANS_SUBDIR_NAME : String := "plans"

/-- The files `plan_generator._process_and_save_plan` writes: the plan
directory, the plan file path and content, and the feature description path
and content (`os.path.join` with the POSIX separator). -/
structure SavedPlan where
  plan_dir : String
  plan_path : String
  plan_file_content : String
  feature_desc_path : String
  feature_desc_content : String
deriving Repr, DecidableEq

/-- `plan_generator._process_and_save_plan` (its filesystem effect): derive
the slug from the plan title and write the plan and the feature description
under `.lazyaider/plans/<slug>/`. -/
def _process_and_save_plan (plan_content feature_description : String) : SavedPlan :=
  let plan_title := _extract_plan_title plan_content
  let sanitized_title := _sanitize_for_path plan_title
  let plan_dir := lazyaider_DIR_NAME ++ "/" ++ PLANS_SUBDIR_NAME ++ "/" ++ sanitized_title
  { plan_dir := plan_dir,
    plan_path := plan_dir ++ "/" ++ (sanitized_title ++ ".md"),
    plan_file_content := plan_content,
    feature_desc_path := plan_dir ++ "/feature_description.md",
    feature_desc_content := feature_description }

/-! ## `tm4aider/llm_planner.py`: the LLM call of `generate_plan` -/

/-- Outcome of the single `litellm.completion` call, one constructor per
`except` arm of `generate_plan` (and `success` for a normal return, carrying
the message content and the reported usage counter). -/
inductive LLMOutcome where
  | success (content : String) (total_tokens : Option Int)
  | api_connection_error (msg : String)
  | timeout (msg : String)
  | api_error (status_code : Int) (msg : String)
  | unexpected_error (exc_type msg : String)
deriving Repr, DecidableEq

/-- The `try: litellm.completion ... except` block of
`llm_planner.generate_plan`: on success the stripped plan text with the model
name and token count, otherwise the formatted markdown error document built
from the exception text. -/
def generate_plan_llm_call (model : String) (outcome : LLMOutcome) :
    (String × String × Option Int) ⊕ String :=
  match outcome with
  | .success content total_tokens =>
    if content ≠ "" then .inl (pyStripStr content, model, total_tokens)
    else .inr ("# Error Generating Plan\n\n" ++
      "Error: LLM response structure was unexpected or content was empty." ++
      "\n\nReview LLM provider logs and ensure the model is accessible and configured correctly.")
  | .api_connection_error msg =>
    .inr ("# Error Generating Plan\n\n" ++
      ("Error connecting to LLM API (" ++ model ++ "): " ++ msg) ++
      "\n\nPlease check your network connection and API key.")
  | .timeout msg =>
    .inr ("# Error Generating Plan\n\n" ++
      ("LLM API call timed out (" ++ model ++ "): " ++ msg) ++
      "\n\nThe model took too long to respond. You might try a different model or check the LLM provider status.")
  | .api_error status_code msg =>
    .inr ("# Error Generating Plan\n\n" ++
      ("LLM API error (" ++ model ++ "): " ++ toString status_code ++ " - " ++ msg) ++
      "\n\nPlease check your API key, model name, and provider quotas.")
  | .unexpected_error exc_type msg =>
    .inr ("# Error Generating Plan\n\n" ++
      ("An unexpected error occurred while calling LLM (" ++ model ++ "): " ++
        exc_type ++ " - " ++ msg))

/-- The markdown error document the timeout branch of `generate_plan`
returns, abbreviated for the statements below. -/
def timeout_error_document (model msg : String) : String :=
  "# Error Generating Plan\n\n" ++
    ("LLM API call timed out (" ++ model ++ "): " ++ msg) ++
    "\n\nThe model took too long to respond. You might try a different model or check the LLM provider status."

/-! ## `tm4aider/section_editor.py`: byte-range section editing -/

/-- `section_editor.extract_section_from_markdown`: the indexed section's text
including its header line, with its start (inclusive) and end (exclusive)
positions; `none` for the source's `(None, -1, -1)` out-of-bounds result. -/
def extract_section_from_markdown (markdown_content : String) (section_index : Nat) :
    Option (String × Nat × Nat) :=
  let cs := markdown_content.toList
  let headers := headerStarts cs
  if section_index < headers.length then
    let content_start_pos := headers.getD section_index 0
    let content_end_pos :=
      if section_index + 1 < headers.length then headers.getD (section_index + 1) 0
      else cs.length
    some (⟨(cs.drop content_start_pos).take (content_end_pos - content_start_pos)⟩,
      content_start_pos, content_end_pos)
  else
    none

/-- The splice `section_editor.main` writes back on save:
`original_content[:start_pos] + processed_edited_text + original_content[end_pos:]`. -/
def section_editor_new_content (original_content processed_edited_text : String)
    (start_pos end_pos : Nat) : String :=
  ⟨original_content.toList.take start_pos ++ processed_edited_text.toList ++
    original_content.toList.drop end_pos⟩

/-! ## `lazyaider/config.py`: `load_config` on raw YAML documents

The YAML document `yaml.safe_load` produces is modelled by `YVal` (mappings
restricted to string keys, which is what a settings file holds).  Python
attribute errors — calling `.get` on a non-dictionary — are the `Except.error`
results; everything after the first `config.get` in the source is dictionary
manipulation on values already coerced to dictionaries and cannot raise. -/

/-- A parsed YAML value. -/
inductive YVal where
  | ynull
  | ybool (b : Bool)
  | yint (n : Int)
  | ystr (s : String)
  | ylist (xs : List YVal)
  | ymap (kvs : List (String × YVal))
deriving Repr

/-- Python truthiness of a YAML value (`config or {}`). -/
def YVal.truthy : YVal → Bool
  | .ynull => false
  | .ybool b => b
  | .yint n => n != 0
  | .ystr s => s ≠ ""
  | .ylist xs => !xs.isEmpty
  | .ymap kvs => !kvs.isEmpty

/-- Python `isinstance(v, int)` (booleans are `int` subclasses). -/
def YVal.is_int : YVal → Bool
  | .yint _ => true
  | .ybool _ => true
  | _ => false

/-- Python `isinstance(v, str)`. -/
def YVal.is_str : YVal → Bool
  | .ystr _ => true
  | _ => false

/-- The key constants of `lazyaider/config.py`. -/
def KEY_SIDEPANE_PERCENT_WIDTH : String := "sidepane_percent_width"

/-- `config.KEY_MANAGED_SESSIONS`. -/
def KEY_MANAGED_SESSIONS : String := "managed_sessions"

/-- `config.KEY_THEME_NAME`. -/
def KEY_THEME_NAME : String := "theme_name"

/-- `config.KEY_LLM_MODEL`. -/
def KEY_LLM_MODEL : String := "llm_model"

/-- `config.KEY_LLM_API_KEY`. -/
def KEY_LLM_API_KEY : String := "llm_api_key"

/-- `config.KEY_PLAN_GENERATION_PROMPT_OVERRIDE_PATH`. -/
def KEY_PLAN_GENERATION_PROMPT_OVERRIDE_PATH : String := "plan_generation_prompt_override_path"

/-- `config.KEY_SESSION_PLAN_PROGRESS`. -/
def KEY_SESSION_PLAN_PROGRESS : String := "plan_progress"

/-- `config.KEY_LAST_AIDER_STEP`. -/
def KEY_LAST_AIDER_STEP : String := "last_aider_step"

/-- `config.KEY_TEXT_EDITOR`. -/
def KEY_TEXT_EDITOR : String := "text_editor"

/-- The path helpers `load_config` uses (`os.path.expanduser`, `os.path.isabs`
and the `abspath`/`join` against the config file's directory).  They are total
string functions of the environment; their values never influence whether
`load_config` raises. -/
structure PathEnv where
  expanduser : String → String
  isabs : String → Bool
  make_absolute : String → String

/-- A path environment that leaves paths untouched. -/
def trivialPathEnv : PathEnv :=
  { expanduser := id, isabs := fun _ => true, make_absolute := id }

/-- The path normalisation applied to a prompt-override path value `p`. -/
def resolve_prompt_path (env : PathEnv) (p : String) : String :=
  let expanded_path := env.expanduser p
  if !env.isabs expanded_path && p ≠ "" then env.make_absolute expanded_path
  else expanded_path

/-- Normalisation of one `plan_progress` entry: non-dictionary progress data
is removed; a present `last_aider_step` that is neither `None` nor an integer
is reset to `None`. -/
def normalize_plan_progress (pp : List (String × YVal)) : List (String × YVal) :=
  pp.filterMap fun entry =>
    match entry.2 with
    | .ymap progress_data =>
      (match dictGet progress_data KEY_LAST_AIDER_STEP with
       | some last_step =>
         if last_step.is_int || (match last_step with | .ynull => true | _ => false) then
           some (entry.1, .ymap progress_data)
         else
           some (entry.1, .ymap (dictSet progress_data KEY_LAST_AIDER_STEP .ynull))
       | none => some (entry.1, .ymap progress_data))
    | _ => none

/-- Normalisation of one session entry of `managed_sessions`: non-dictionary
settings are reset to `{}`, `plan_progress` is forced to a dictionary and its
entries validated. -/
def normalize_session_settings (session_settings : YVal) : YVal :=
  let ss : List (String × YVal) :=
    match session_settings with
    | .ymap m => m
    | _ => []
  let pp : List (String × YVal) :=
    match dictGet ss KEY_SESSION_PLAN_PROGRESS with
    | some (.ymap m) => m
    | _ => []
  .ymap (dictSet ss KEY_SESSION_PLAN_PROGRESS (.ymap (normalize_plan_progress pp)))

/-- The session-specific prompt-override pass of `load_config`: a present
non-string, non-null override is deleted; a string override is resolved. -/
def process_session_prompt_path (env : PathEnv) (session_settings : YVal) : YVal :=
  match session_settings with
  | .ymap ss =>
    (match dictGet ss KEY_PLAN_GENERATION_PROMPT_OVERRIDE_PATH with
     | some (.ystr p) =>
       .ymap (dictSet ss KEY_PLAN_GENERATION_PROMPT_OVERRIDE_PATH
         (.ystr (resolve_prompt_path env p)))
     | some .ynull => .ymap ss
     | some _ => .ymap (ss.filter fun kv => kv.1 ≠ KEY_PLAN_GENERATION_PROMPT_OVERRIDE_PATH)
     | none => .ymap ss)
  | v => v

/-- The defaulting body of `load_config` (everything after `config` is known
to be a dictionary), in source order.  String-keyed dictionaries only: the
legacy list-to-dictionary migration therefore requires string session names
(Python would accept any hashable scalar and raise `TypeError` on unhashable
ones — a corner no claim exercises). -/
def apply_config_defaults (env : PathEnv) (config : List (String × YVal)) :
    Except String (List (String × YVal)) := do
  -- sidepane_percent_width: int or the default 20
  let config : List (String × YVal) :=
    match dictGet config KEY_SIDEPANE_PERCENT_WIDTH with
    | some v => if v.is_int then config else dictSet config KEY_SIDEPANE_PERCENT_WIDTH (.yint 20)
    | none => dictSet config KEY_SIDEPANE_PERCENT_WIDTH (.yint 20)
  -- managed_sessions: migrate a legacy list, else force a dictionary
  let config : List (String × YVal) ←
    match dictGet config KEY_MANAGED_SESSIONS with
    | some (.ylist xs) =>
      (match xs.mapM (fun v => match v with | .ystr s => some s | _ => none) with
       | some names =>
         pure (dictSet config KEY_MANAGED_SESSIONS
           (.ymap (names.foldl (fun m n => dictSet m n (.ymap [])) [])))
       | none => throw "TypeError")
    | some (.ymap _) => pure config
    | _ => pure (dictSet config KEY_MANAGED_SESSIONS (.ymap []))
  -- per-session settings and plan progress validation
  let config : List (String × YVal) :=
    match dictGet config KEY_MANAGED_SESSIONS with
    | some (.ymap sessions) =>
      dictSet config KEY_MANAGED_SESSIONS
        (.ymap (sessions.map fun kv => (kv.1, normalize_session_settings kv.2)))
    | _ => config
  -- theme_name: string or the default "light"
  let config : List (String × YVal) :=
    match dictGet config KEY_THEME_NAME with
    | some v => if v.is_str then config else dictSet config KEY_THEME_NAME (.ystr "light")
    | none => dictSet config KEY_THEME_NAME (.ystr "light")
  -- llm_model: non-empty (after strip) string or the default
  let config : List (String × YVal) :=
    match dictGet config KEY_LLM_MODEL with
    | some (.ystr s) =>
      if pyStripStr s ≠ "" then config else dictSet config KEY_LLM_MODEL (.ystr "gpt-3.5-turbo")
    | _ => dictSet config KEY_LLM_MODEL (.ystr "gpt-3.5-turbo")
  -- llm_api_key: string or None
  let config : List (String × YVal) :=
    match dictGet config KEY_LLM_API_KEY with
    | some (.ystr _) => config
    | some .ynull => config
    | some _ => dictSet config KEY_LLM_API_KEY .ynull
    | none => dictSet config KEY_LLM_API_KEY .ynull
  -- global plan_generation_prompt_override_path: string or None, then resolved
  let config : List (String × YVal) :=
    match dictGet config KEY_PLAN_GENERATION_PROMPT_OVERRIDE_PATH with
    | some (.ystr _) => config
    | some .ynull => config
    | some _ => dictSet config KEY_PLAN_GENERATION_PROMPT_OVERRIDE_PATH .ynull
    | none => dictSet config KEY_PLAN_GENERATION_PROMPT_OVERRIDE_PATH .ynull
  let config : List (String × YVal) :=
    match dictGet config KEY_PLAN_GENERATION_PROMPT_OVERRIDE_PATH with
    | some (.ystr p) =>
      dictSet config KEY_PLAN_GENERATION_PROMPT_OVERRIDE_PATH
        (.ystr (resolve_prompt_path env p))
    | _ => config
  -- session-specific plan_generation_prompt_override_path
  let config : List (String × YVal) :=
    match dictGet config KEY_MANAGED_SESSIONS with
    | some (.ymap sessions) =>
      dictSet config KEY_MANAGED_SESSIONS
        (.ymap (sessions.map fun kv => (kv.1, process_session_prompt_path env kv.2)))
    | _ => config
  -- text_editor: non-string values get the default, "" becomes None
  let config : List (String × YVal) :=
    match dictGet config KEY_TEXT_EDITOR with
    | some .ynull => config
    | some (.ystr s) => if s = "" then dictSet config KEY_TEXT_EDITOR .ynull else config
    | some _ => dictSet config KEY_TEXT_EDITOR (.ystr "nano")
    | none => dictSet config KEY_TEXT_EDITOR (.ystr "nano")
  pure config

/-- `config.load_config`.  `parsed` is the result of locating and parsing the
configuration file: `none` when no file exists, `some (.error e)` when
`yaml.safe_load` raised (caught: the code proceeds with `{}`), and
`some (.ok v)` for a parsed document, where `config = v or {}`.  A truthy
non-mapping document reaches `config.get(...)` and raises `AttributeError`,
which nothing catches. -/
def load_config (parsed : Option (Except String YVal)) (env : PathEnv) :
    Except String (List (String × YVal)) :=
  let config : YVal :=
    match parsed with
    | none => .ymap []
    | some (.error _) => .ymap []
    | some (.ok v) => if v.truthy then v else .ymap []
  match config with
  | .ymap kvs => apply_config_defaults env kvs
  | _ => .error "AttributeError"

/-- The fully defaulted settings mapping `load_config` produces from an empty
configuration, in the source's insertion order. -/
def fully_defaulted_settings : List (String × YVal) :=
  [(KEY_SIDEPANE_PERCENT_WIDTH, .yint 20),
   (KEY_MANAGED_SESSIONS, .ymap []),
   (KEY_THEME_NAME, .ystr "light"),
   (KEY_LLM_MODEL, .ystr "gpt-3.5-turbo"),
   (KEY_LLM_API_KEY, .ynull),
   (KEY_PLAN_GENERATION_PROMPT_OVERRIDE_PATH, .ynull),
   (KEY_TEXT_EDITOR, .ystr "nano")]

/-- The plan markdown of end-to-end scenarios A and B (spec §8). -/
def scenario_plan_markdown : String :=
  "# Title\n\n## Step One\n\n- a.py\n\nDo X\n\n## Step Two\n\nDo Y\n"

/-- The filesystem of scenarios A and B: exactly `a.py` exists as a file. -/
def scenario_file_exists : String → Bool := fun p => p == "a.py"

/-! ## Dictionary lemmas -/

theorem dictGet_dictSet_self {α : Type} (l : List (String × α)) (k : String) (v : α) :
    dictGet (dictSet l k v) k = some v := by
  induction l with
  | nil => simp [dictGet, dictSet]
  | cons hd tl ih =>
    obtain ⟨k', v'⟩ := hd
    by_cases h : k' = k <;> simp [dictGet, dictSet, h, ih]

theorem dictGet_append_of_none {α : Type} (l m : List (String × α)) (k : String)
    (h : dictGet l k = none) : dictGet (l ++ m) k = dictGet m k := by
  induction l with
  | nil => simp
  | cons hd tl ih =>
    obtain ⟨k', v'⟩ := hd
    by_cases hk : k' = k
    · simp [dictGet, hk] at h
    · simp only [dictGet, hk, if_false, List.cons_append] at h ⊢
      exact ih h

theorem dictGet_dictSetdefault_self {α : Type} (l : List (String × α)) (k : String) (v : α) :
    dictGet (dictSetdefault l k v) k = some ((dictGet l k).getD v) := by
  unfold dictSetdefault
  cases h : dictGet l k with
  | some w => simp [h]
  | none => simp [h, dictGet_append_of_none _ _ _ h, dictGet]

/-! ## Watermark round-trip lemmas -/

/-- Reading back right after `update_session_last_aider_step` wrote `v` yields
`v`, for non-empty session and plan names. -/
theorem get_session_last_aider_step_update (st : Settings) (s p : String) (v : Option Int)
    (hs : s ≠ "") (hp : p ≠ "") :
    get_session_last_aider_step (update_session_last_aider_step st s p v).1 s p = v := by
  have hc : ¬ (s = "" ∨ p = "") := by tauto
  simp only [update_session_last_aider_step, hc, if_false]
  split
  · next heq =>
    simp only [dictGet_dictSetdefault_self, Option.getD_some] at heq
    simp only [get_session_last_aider_step, hc, if_false, dictGet_dictSet_self,
      dictGet_dictSetdefault_self, Option.getD_some]
    exact heq
  · simp only [get_session_last_aider_step, hc, if_false, dictGet_dictSet_self]

/-- When the stored watermark already equals `step_index`, the mutator skips
`save_config` (the `changed?` check), for non-empty names. -/
theorem update_session_last_aider_step_no_save (st : Settings) (s p : String) (v : Option Int)
    (hs : s ≠ "") (hp : p ≠ "")
    (h : get_session_last_aider_step st s p = v) :
    (update_session_last_aider_step st s p v).2 = false := by
  have hc : ¬ (s = "" ∨ p = "") := by tauto
  simp only [get_session_last_aider_step, hc, if_false] at h
  simp only [update_session_last_aider_step, hc, if_false, dictGet_dictSetdefault_self,
    Option.getD_some]
  have hcond :
      ((dictGet ((dictGet st.managed_sessions s).getD {}).plan_progress p).getD
        ({} : PlanProgressEntry)).last_aider_step = v := by
    cases hms : dictGet st.managed_sessions s with
    | none =>
      simp only [hms] at h
      simp [hms, dictGet, ← h]
    | some ss =>
      simp only [hms] at h
      cases hpp : dictGet ss.plan_progress p with
      | none =>
        simp only [hpp] at h
        simp [hpp, ← h]
      | some e =>
        simp only [hpp] at h
        simp [hpp, ← h]
  simp [hcond]

/-! ## First-occurrence splitting lemmas -/

theorem splitOnFirst_of_not_contains (sep cs : List Char)
    (h : containsSeq sep cs = false) : splitOnFirst sep cs = (cs, none) := by
  induction cs with
  | nil =>
    simp only [containsSeq] at h
    simp [splitOnFirst, h]
  | cons c cs ih =>
    simp only [containsSeq, Bool.or_eq_false_iff] at h
    simp [splitOnFirst, h.1, ih h.2]

theorem splitOnFirst_of_contains (sep cs : List Char)
    (h : containsSeq sep cs = true) :
    ∃ a b, splitOnFirst sep cs = (a, some b) := by
  induction cs with
  | nil =>
    simp only [containsSeq] at h
    exact ⟨[], [], by simp [splitOnFirst, h]⟩
  | cons c cs ih =>
    by_cases h1 : sep.isPrefixOf (c :: cs)
    · exact ⟨[], (c :: cs).drop sep.length, by simp [splitOnFirst, h1]⟩
    · simp only [containsSeq, h1, Bool.false_or] at h
      obtain ⟨a, b, hab⟩ := ih h
      exact ⟨c :: a, b, by simp [splitOnFirst, h1, hab]⟩

/-- Specification of `splitOnFirst`: a `some` result decomposes the input at
the first occurrence of the (non-empty) separator. -/
theorem splitOnFirst_some_spec (sep : List Char) (hsep : sep ≠ []) :
    ∀ cs a b, splitOnFirst sep cs = (a, some b) →
      cs = a ++ sep ++ b ∧ (∀ j < a.length, sep.isPrefixOf (cs.drop j) = false) := by
  intro cs
  induction cs with
  | nil =>
    intro a b h
    have hpre : sep.isPrefixOf ([] : List Char) = false := by
      cases sep with
      | nil => exact absurd rfl hsep
      | cons x xs => rfl
    simp [splitOnFirst, hpre] at h
  | cons c cs ih =>
    intro a b h
    by_cases h1 : sep.isPrefixOf (c :: cs)
    · simp only [splitOnFirst, h1, if_true, Prod.mk.injEq, Option.some.injEq] at h
      obtain ⟨ha, hb⟩ := h
      subst ha
      obtain ⟨t, ht⟩ := List.isPrefixOf_iff_prefix.mp h1
      constructor
      · rw [← hb, ← ht, List.drop_left]
        simp
      · intro j hj
        simp at hj
    · simp only [splitOnFirst, h1, Bool.false_eq_true, if_false] at h
      cases hr : splitOnFirst sep cs with
      | mk r1 r2 =>
        rw [hr] at h
        simp only [Prod.mk.injEq] at h
        obtain ⟨ha, hb⟩ := h
        subst hb
        obtain ⟨hcs, hmin⟩ := ih r1 b hr
        subst ha
        constructor
        · rw [hcs]
          simp
        · intro j hj
          simp only [List.length_cons] at hj
          cases j with
          | zero =>
            simpa using (Bool.not_eq_true _).mp h1
          | succ j' =>
            rw [List.drop_succ_cons]
            exact hmin j' (by omega)

/-! ## Header position lemmas -/

theorem mem_headerStarts_lt (cs : List Char) (i : Nat) (h : i ∈ headerStarts cs) :
    i < cs.length := by
  unfold headerStarts at h
  exact List.mem_range.mp (List.mem_filter.mp h).1

theorem headerStarts_getD_lt (cs : List Char) (n : Nat)
    (h : n < (headerStarts cs).length) : (headerStarts cs).getD n 0 < cs.length := by
  apply mem_headerStarts_lt
  rw [List.getD_eq_getElem _ _ h]
  exact List.getElem_mem h

/-! ## Splice lemmas -/

theorem splice_take (a e d : List Char) : (a ++ e ++ d).take a.length = a := by
  rw [List.append_assoc, List.take_left]

theorem splice_drop (a e d : List Char) :
    (a ++ e ++ d).drop (a.length + e.length) = d := by
  rw [← List.length_append, List.drop_left]

/-! ## Splitlines lemmas -/

theorem splitOnNewline_ne_nil (cs : List Char) : splitOnNewline cs ≠ [] := by
  match cs with
  | [] => simp [splitOnNewline]
  | c :: rest =>
    simp only [splitOnNewline]
    by_cases hc : c = '\n'
    · simp [hc]
    · rw [if_neg hc]
      split <;> simp

theorem splitOnNewline_append (pre suf : List Char) (h : '\n' ∉ pre) :
    splitOnNewline (pre ++ '\n' :: suf) = pre :: splitOnNewline suf := by
  induction pre with
  | nil => simp [splitOnNewline]
  | cons c cs ih =>
    have hc : c ≠ '\n' := fun e => h (e ▸ List.mem_cons_self c cs)
    have h' : '\n' ∉ cs := fun hm => h (List.mem_cons_of_mem c hm)
    rw [List.cons_append]
    show splitOnNewline (c :: (cs ++ '\n' :: suf)) = (c :: cs) :: splitOnNewline suf
    simp only [splitOnNewline]
    rw [if_neg hc, ih h']

/-- The first line of a text of the shape `pre ++ "\n" ++ suf` (with `pre`
newline-free) is `pre`, whatever follows. -/
theorem pySplitlines_head (pre suf : List Char) (h : '\n' ∉ pre) :
    ∃ tail, pySplitlines (pre ++ '\n' :: suf) = pre :: tail := by
  have hne : pre ++ '\n' :: suf ≠ [] := by simp
  have hsplit := splitOnNewline_append pre suf h
  unfold pySplitlines
  rw [if_neg hne, hsplit]
  by_cases hl : (pre ++ '\n' :: suf).getLast? = some '\n'
  · refine ⟨(splitOnNewline suf).dropLast, ?_⟩
    rw [if_pos hl]
    exact List.dropLast_cons_of_ne_nil (splitOnNewline_ne_nil suf)
  · exact ⟨splitOnNewline suf, by rw [if_neg hl]⟩

/-! ## Slug shape lemmas -/

theorem head_replaceRunsGo_true (cs : List Char) :
    ((replaceRunsGo (· == '-') '-' true cs).head?.getD ' ' == '-') = false := by
  induction cs with
  | nil => rfl
  | cons c cs ih =>
    by_cases hc : (c == '-') = true
    · simpa [replaceRunsGo, hc] using ih
    · simp only [replaceRunsGo, Bool.not_eq_true] at hc ⊢
      rw [hc]
      simpa using hc

theorem noAdjHyphens_replaceRunsGo (cs : List Char) :
    ∀ b, noAdjHyphens (replaceRunsGo (· == '-') '-' b cs) = true := by
  induction cs with
  | nil => intro b; rfl
  | cons c cs ih =>
    intro b
    by_cases hc : (c == '-') = true
    · cases b with
      | true => simpa [replaceRunsGo, hc] using ih true
      | false =>
        simp only [replaceRunsGo, hc, if_true]
        simp only [noAdjHyphens]
        simp [ih true]
        simpa using head_replaceRunsGo_true cs
    · simp only [replaceRunsGo, Bool.not_eq_true] at hc
      simp only [replaceRunsGo, hc, Bool.false_eq_true, if_false]
      simp only [noAdjHyphens]
      simp [hc, ih false]

theorem all_replaceRunsGo (q : Char → Bool) (hq : q '-' = true) (cs : List Char)
    (h : cs.all q = true) : ∀ b, (replaceRunsGo (· == '-') '-' b cs).all q = true := by
  induction cs with
  | nil => intro b; rfl
  | cons c cs ihc =>
    intro b
    simp only [List.all_cons, Bool.and_eq_true] at h
    by_cases hc : (c == '-') = true
    · cases b with
      | true => simpa [replaceRunsGo, hc] using ihc h.2 true
      | false => simp [replaceRunsGo, hc, hq, ihc h.2 true]
    · simp only [replaceRunsGo, Bool.not_eq_true] at hc
      simp [replaceRunsGo, hc, h.1, ihc h.2 false]

theorem head_dropWhile_false (p : Char → Bool) (cs : List Char) :
    ∀ c, (cs.dropWhile p).head? = some c → p c = false := by
  induction cs with
  | nil => simp
  | cons x xs ih =>
    intro c h
    by_cases hx : p x = true
    · rw [List.dropWhile_cons_of_pos hx] at h
      exact ih c h
    · rw [Bool.not_eq_true] at hx
      rw [List.dropWhile_cons_of_neg (by simp [hx])] at h
      rw [List.head?_cons, Option.some.injEq] at h
      rw [← h]
      exact hx

theorem noAdjHyphens_append_right (a b : List Char)
    (h : noAdjHyphens (a ++ b) = true) : noAdjHyphens b = true := by
  induction a with
  | nil => exact h
  | cons x xs ih =>
    rw [List.cons_append] at h
    simp only [noAdjHyphens, Bool.and_eq_true] at h
    exact ih h.2

theorem noAdjHyphens_append_left (a b : List Char)
    (h : noAdjHyphens (a ++ b) = true) : noAdjHyphens a = true := by
  induction a with
  | nil => rfl
  | cons x xs ih =>
    rw [List.cons_append] at h
    simp only [noAdjHyphens, Bool.and_eq_true] at h
    simp only [noAdjHyphens, Bool.and_eq_true]
    refine ⟨?_, ih h.2⟩
    cases xs with
    | nil => simp
    | cons y ys => simpa using h.1

/-- The stripped list is an initial segment of the front-stripped list. -/
theorem stripWhile_eq_append (p : Char → Bool) (cs : List Char) :
    ∃ s, cs.dropWhile p = stripWhile p cs ++ s := by
  refine ⟨((cs.dropWhile p).reverse.takeWhile p).reverse, ?_⟩
  unfold stripWhile
  conv_lhs => rw [← List.reverse_reverse (cs.dropWhile p)]
  rw [← List.reverse_append, List.takeWhile_append_dropWhile]

theorem stripWhile_all (p q : Char → Bool) (cs : List Char)
    (h : cs.all q = true) : (stripWhile p cs).all q = true := by
  rw [List.all_eq_true] at h ⊢
  intro c hc
  apply h
  unfold stripWhile at hc
  rw [List.mem_reverse] at hc
  have hc2 := (List.dropWhile_sublist _).subset hc
  rw [List.mem_reverse] at hc2
  exact (List.dropWhile_sublist _).subset hc2

theorem stripWhile_noAdjHyphens (p : Char → Bool) (cs : List Char)
    (h : noAdjHyphens cs = true) : noAdjHyphens (stripWhile p cs) = true := by
  obtain ⟨t, ht⟩ := (List.dropWhile_suffix (l := cs) p)
  obtain ⟨s, hs⟩ := stripWhile_eq_append p cs
  have hm : noAdjHyphens (cs.dropWhile p) = true := by
    rw [← ht] at h
    exact noAdjHyphens_append_right t _ h
  rw [hs] at hm
  exact noAdjHyphens_append_left _ s hm

theorem stripWhile_head (p : Char → Bool) (cs : List Char) :
    ∀ c, (stripWhile p cs).head? = some c → p c = false := by
  intro c hc
  obtain ⟨s, hs⟩ := stripWhile_eq_append p cs
  have hhead : (cs.dropWhile p).head? = some c := by
    rw [hs]
    cases hsw : stripWhile p cs with
    | nil => rw [hsw] at hc; simp at hc
    | cons x xs =>
      rw [hsw] at hc
      rw [List.cons_append, List.head?_cons]
      simpa using hc
  exact head_dropWhile_false p cs c hhead

theorem stripWhile_getLast (p : Char → Bool) (cs : List Char) :
    ∀ c, (stripWhile p cs).getLast? = some c → p c = false := by
  intro c hc
  rw [← List.head?_reverse] at hc
  unfold stripWhile at hc
  rw [List.reverse_reverse] at hc
  exact head_dropWhile_false p _ c hc

/-! ## Timeout error document lemmas -/

/-- The plan title extracted from the timeout error document is the fixed
heading text, whatever the model name and exception text. -/
theorem extract_plan_title_timeout_doc (model msg : String) :
    _extract_plan_title (timeout_error_document model msg) =
      "Error Generating Plan" := by
  obtain ⟨tail, htail⟩ := pySplitlines_head "# Error Generating Plan".toList
    ('\n' :: ("LLM API call timed out (" ++ model ++ "): " ++ msg ++
      "\n\nThe model took too long to respond. You might try a different model or check the LLM provider status.").toList)
    (by decide)
  unfold _extract_plan_title
  rw [show (timeout_error_document model msg).toList =
      "# Error Generating Plan".toList ++ '\n' ::
        ('\n' :: ("LLM API call timed out (" ++ model ++ "): " ++ msg ++
          "\n\nThe model took too long to respond. You might try a different model or check the LLM provider status.").toList)
      from rfl]
  rw [htail]
  rfl

/-- Saving the timeout error document produces the standard plan layout under
the slug of its fixed `# Error Generating Plan` heading. -/
theorem process_and_save_timeout_doc (model msg feature_description : String) :
    _process_and_save_plan (timeout_error_document model msg) feature_description =
      { plan_dir := ".lazyaider/plans/error-generating-plan",
        plan_path := ".lazyaider/plans/error-generating-plan/error-generating-plan.md",
        plan_file_content := timeout_error_document model msg,
        feature_desc_path := ".lazyaider/plans/error-generating-plan/feature_description.md",
        feature_desc_content := feature_description } := by
  unfold _process_and_save_plan
  rw [extract_plan_title_timeout_doc]
  rfl

/-! ## Claims -/

/-- C1: for the scenario-A plan markdown, with `a.py` existing on disk,
sending section 0 with action `code` issues an add-files directive whose
argument list contains `a.py`, issues a `/code` directive wrapping the prompt
text `Do X`, and updates the stored watermark of the active (session, plan)
pair to 0. -/
theorem claim_C1_scenario_a_send_section_0 (st : Settings) (use_reset : Bool)
    (tag_id session_name plan_name : String)
    (hs : session_name ≠ "") (hp : plan_name ≠ "") :
    "/add a.py" ∈ (send_plan_section scenario_plan_markdown 0 "code" use_reset
        scenario_file_exists tag_id st session_name plan_name).sent_keys ∧
    "/code Do X" ∈ (send_plan_section scenario_plan_markdown 0 "code" use_reset
        scenario_file_exists tag_id st session_name plan_name).sent_keys ∧
    (send_plan_section scenario_plan_markdown 0 "code" use_reset
        scenario_file_exists tag_id st session_name plan_name).bounds_error = false ∧
    get_session_last_aider_step
      (send_plan_section scenario_plan_markdown 0 "code" use_reset
        scenario_file_exists tag_id st session_name plan_name).settings
      session_name plan_name = some 0 := by
  have hsend : send_plan_section scenario_plan_markdown 0 "code" use_reset
      scenario_file_exists tag_id st session_name plan_name =
      { sent_keys := (if use_reset then ["/reset", "Enter"] else []) ++
          ["/add a.py", "Enter"] ++
          ["\x7btag" ++ tag_id, "Enter", "/code Do X", "Enter",
            "tag" ++ tag_id ++ "\x7d", "Enter"],
        bounds_error := false,
        settings := if session_name ≠ "" ∧ plan_name ≠ "" then
            (update_session_last_aider_step st session_name plan_name
              (some (Int.ofNat 0))).1
          else st } := by
    cases use_reset <;> rfl
  rw [hsend]
  refine ⟨?_, ?_, rfl, ?_⟩
  · cases use_reset <;> simp
  · cases use_reset <;> simp
  · simp only [if_pos (And.intro hs hp)]
    exact get_session_last_aider_step_update st session_name plan_name (some 0) hs hp

/-- Witness for C1 at a concrete session, plan, settings state and tag. -/
theorem claim_C1_witness :
    ("sess" : String) ≠ "" ∧ ("plan" : String) ≠ "" ∧
    ("/add a.py" ∈ (send_plan_section scenario_plan_markdown 0 "code" false
        scenario_file_exists "12345678" {} "sess" "plan").sent_keys ∧
     "/code Do X" ∈ (send_plan_section scenario_plan_markdown 0 "code" false
        scenario_file_exists "12345678" {} "sess" "plan").sent_keys ∧
     (send_plan_section scenario_plan_markdown 0 "code" false
        scenario_file_exists "12345678" {} "sess" "plan").bounds_error = false ∧
     get_session_last_aider_step
       (send_plan_section scenario_plan_markdown 0 "code" false
         scenario_file_exists "12345678" {} "sess" "plan").settings
       "sess" "plan" = some 0) :=
  ⟨by decide, by decide,
    claim_C1_scenario_a_send_section_0 {} false "12345678" "sess" "plan"
      (by decide) (by decide)⟩

/-- C2 counterexample: for the scenario plan, sending section 1 with action
`code` (reset switch off) sends only the bare `/code` directive and an Enter;
in particular the directive `/code Do Y` the claim promises is never sent. -/
theorem claim_C2_counterexample :
    (send_plan_section scenario_plan_markdown 1 "code" false scenario_file_exists
        "12345678" {} "sess" "plan").sent_keys = ["/code", "Enter"] ∧
    "/code Do Y" ∉ (send_plan_section scenario_plan_markdown 1 "code" false
        scenario_file_exists "12345678" {} "sess" "plan").sent_keys := by
  have h : (send_plan_section scenario_plan_markdown 1 "code" false scenario_file_exists
      "12345678" {} "sess" "plan").sent_keys = ["/code", "Enter"] := rfl
  refine ⟨h, ?_⟩
  rw [h]
  decide

/-- C2 (amended): for the scenario plan, sending section 1 skips the add-files
directive entirely, and — because the single-line body `Do Y` is consumed as
the files chunk, leaving the prompt chunk empty — sends only the bare action
directive `/code` (plus its confirming Enter, after the optional `/reset`
pair); the watermark is not updated. -/
theorem claim_C2_scenario_b_amended (st : Settings) (use_reset : Bool)
    (tag_id session_name plan_name : String) :
    send_plan_section scenario_plan_markdown 1 "code" use_reset
        scenario_file_exists tag_id st session_name plan_name =
      { sent_keys := (if use_reset then ["/reset", "Enter"] else []) ++ ["/code", "Enter"],
        bounds_error := false,
        settings := st } := by
  cases use_reset <;> rfl

/-- C3 counterexample: the claim predicts that for a body containing `\n\n`
the files chunk is the text before the first `\n\n` **of the body** and the
prompt chunk everything after it; for `b = "\n\nX"` that would be `("", "X")`,
but the code strips the body first and returns `("X", "")`. -/
theorem claim_C3_counterexample :
    containsSeq doubleNewline ("\n\nX" : String).toList = true ∧
    parse_section_content_chunks "\n\nX" = ("X", "") ∧
    ¬ parse_section_content_chunks "\n\nX" = ("", "X") := by
  decide

/-- C3 (amended): the chunk splitter first strips the body; if the stripped
body contains no `\n\n` it is returned whole as the files chunk with an empty
prompt chunk, otherwise the files chunk is the text before the first `\n\n`
of the **stripped** body and the prompt chunk is everything after it. -/
theorem claim_C3_chunk_split_amended (b : String) :
    (containsSeq doubleNewline (pyStrip b.toList) = false ∧
      parse_section_content_chunks b = (pyStripStr b, "")) ∨
    (containsSeq doubleNewline (pyStrip b.toList) = true ∧
      ∃ files_chunk prompt_chunk : String,
        parse_section_content_chunks b = (files_chunk, prompt_chunk) ∧
        pyStrip b.toList =
          files_chunk.toList ++ doubleNewline ++ prompt_chunk.toList ∧
        (∀ j < files_chunk.toList.length,
          doubleNewline.isPrefixOf ((pyStrip b.toList).drop j) = false)) := by
  cases hc : containsSeq doubleNewline (pyStrip b.toList) with
  | false =>
    left
    refine ⟨rfl, ?_⟩
    unfold parse_section_content_chunks
    rw [splitOnFirst_of_not_contains _ _ hc]
    rfl
  | true =>
    right
    obtain ⟨a, rest, hab⟩ := splitOnFirst_of_contains _ _ hc
    obtain ⟨hsplit, hmin⟩ :=
      splitOnFirst_some_spec doubleNewline (by decide) _ _ _ hab
    refine ⟨rfl, ⟨a⟩, ⟨rest⟩, ?_, ?_, ?_⟩
    · unfold parse_section_content_chunks
      rw [hab]
    · exact hsplit
    · exact hmin

/-- C4: sending any section index at or beyond the section count reports the
bounds error and issues no process-bridge call at all (empty key trace,
settings untouched). -/
theorem claim_C4_out_of_bounds_no_bridge_call (content : String) (k : Nat)
    (action_type : String) (use_reset : Bool) (file_exists : String → Bool)
    (tag_id : String) (st : Settings) (session_name plan_name : String) :
    send_plan_section content (num_sections content + k) action_type use_reset
        file_exists tag_id st session_name plan_name =
      { sent_keys := [], bounds_error := true, settings := st } := by
  have hb : get_section_content_by_index content (num_sections content + k) = none := by
    have hlt : ¬ ((headerStarts content.toList).length + k <
        (headerStarts content.toList).length) := by omega
    simp only [get_section_content_by_index, num_sections, hlt, if_false]
  simp only [send_plan_section, hb]

/-- C5: updating the watermark twice in a row with the same index leaves the
stored watermark equal to that index, and the second call fails the `changed?`
check, so it does not rewrite the configuration file.  Session and plan names
are non-empty: an empty (falsy) name is rejected by the mutator's guard before
anything happens, so no watermark is stored for it at all. -/
theorem claim_C5_watermark_update_idempotent (st : Settings) (s p : String) (n : Int)
    (hs : s ≠ "") (hp : p ≠ "") :
    (update_session_last_aider_step
        (update_session_last_aider_step st s p (some n)).1 s p (some n)).2 = false ∧
    get_session_last_aider_step
      (update_session_last_aider_step
        (update_session_last_aider_step st s p (some n)).1 s p (some n)).1 s p = some n :=
  ⟨update_session_last_aider_step_no_save _ s p (some n) hs hp
      (get_session_last_aider_step_update st s p (some n) hs hp),
    get_session_last_aider_step_update _ s p (some n) hs hp⟩

/-- Witness for C5 at a concrete session, plan and index. -/
theorem claim_C5_witness :
    ("sess" : String) ≠ "" ∧ ("plan" : String) ≠ "" ∧
    ((update_session_last_aider_step
        (update_session_last_aider_step {} "sess" "plan" (some 3)).1 "sess" "plan"
        (some 3)).2 = false ∧
      get_session_last_aider_step
        (update_session_last_aider_step
          (update_session_last_aider_step {} "sess" "plan" (some 3)).1 "sess" "plan"
          (some 3)).1 "sess" "plan" = some 3) :=
  ⟨by decide, by decide,
    claim_C5_watermark_update_idempotent {} "sess" "plan" 3 (by decide) (by decide)⟩

/-- C10: the watermark round-trips for non-empty (truthy) session and plan
names — updating with `n` and reading back yields `n`; updating with `None`
afterwards and reading back yields `None`; and the getter returns `None` for
an empty session or plan name (it is a pure read of the settings mapping, so
it modifies nothing by construction). -/
theorem claim_C10_watermark_roundtrip (st : Settings) (s p : String) (n : Int)
    (hs : s ≠ "") (hp : p ≠ "") :
    get_session_last_aider_step
      (update_session_last_aider_step st s p (some n)).1 s p = some n ∧
    get_session_last_aider_step
      (update_session_last_aider_step
        (update_session_last_aider_step st s p (some n)).1 s p none).1 s p = none ∧
    (∀ (st' : Settings) (q : String),
      get_session_last_aider_step st' "" q = none ∧
      get_session_last_aider_step st' q "" = none) := by
  refine ⟨get_session_last_aider_step_update st s p (some n) hs hp,
    get_session_last_aider_step_update _ s p none hs hp, ?_⟩
  intro st' q
  constructor <;> simp [get_session_last_aider_step]

/-- C6 counterexample: configuration content parsing to a truthy non-mapping
document (here the YAML document `true`) makes `load_config` raise an
`AttributeError` at the first `config.get(...)` — nothing catches it, so the
claim that `load_config` never raises for any file content is false. -/
theorem claim_C6_counterexample :
    YVal.truthy (.ybool true) = true ∧
    load_config (some (.ok (.ybool true))) trivialPathEnv = .error "AttributeError" :=
  ⟨rfl, rfl⟩

/-- C6 (amended): when the configuration file is absent, fails to parse (all
parse errors are caught and logged), or parses to a falsy document (treated as
`{}` by `config or {}`), `load_config` proceeds with the empty mapping and
returns the fully defaulted settings mapping without raising; content parsing
to a truthy non-mapping instead escapes as an uncaught `AttributeError` (see
the counterexample). -/
theorem claim_C6_load_config_defaults (parsed : Option (Except String YVal))
    (env : PathEnv)
    (h : parsed = none ∨ (∃ e, parsed = some (.error e)) ∨
      (∃ v, parsed = some (.ok v) ∧ v.truthy = false)) :
    load_config parsed env = .ok fully_defaulted_settings := by
  rcases h with h | ⟨e, h⟩ | ⟨v, h, hv⟩
  · rw [h]
    rfl
  · rw [h]
    rfl
  · rw [h]
    simp only [load_config, hv, Bool.false_eq_true, if_false]
    rfl

/-- C9: for every input, the slug is non-empty, contains only lowercase ASCII
letters, digits and hyphens, has no adjacent hyphens and neither leading nor
trailing hyphen; inputs that sanitize to nothing fall back to the fixed
`"default-plan-title"`. -/
theorem claim_C9_sanitize_slug :
    (∀ s : String,
      (_sanitize_for_path s).toList ≠ [] ∧
      (_sanitize_for_path s).toList.all isSlugChar = true ∧
      noAdjHyphens (_sanitize_for_path s).toList = true ∧
      (_sanitize_for_path s).toList.head? ≠ some '-' ∧
      (_sanitize_for_path s).toList.getLast? ≠ some '-') ∧
    _sanitize_for_path "My  Plan!? Title 2" = "my-plan-title-2" ∧
    _sanitize_for_path "!!!" = "default-plan-title" := by
  refine ⟨?_, rfl, rfl⟩
  intro s
  have hstruct : _sanitize_for_path s =
      (if stripChar '-' (replaceRuns (· == '-') '-'
          ((replaceRuns pyIsSpace '-' (s.toList.map Char.toLower)).filter isSlugChar)) = []
        then "default-plan-title"
        else ⟨stripChar '-' (replaceRuns (· == '-') '-'
          ((replaceRuns pyIsSpace '-' (s.toList.map Char.toLower)).filter isSlugChar))⟩) :=
    rfl
  by_cases hf : stripChar '-' (replaceRuns (· == '-') '-'
      ((replaceRuns pyIsSpace '-' (s.toList.map Char.toLower)).filter isSlugChar)) = []
  · rw [hstruct, if_pos hf]
    refine ⟨by decide, by decide, by decide, by decide, by decide⟩
  · rw [hstruct, if_neg hf]
    have htl : (String.mk (stripChar '-' (replaceRuns (· == '-') '-'
        ((replaceRuns pyIsSpace '-' (s.toList.map Char.toLower)).filter isSlugChar)))).toList =
        stripChar '-' (replaceRuns (· == '-') '-'
          ((replaceRuns pyIsSpace '-' (s.toList.map Char.toLower)).filter isSlugChar)) := rfl
    rw [htl]
    have hall : ((replaceRuns pyIsSpace '-' (s.toList.map Char.toLower)).filter
        isSlugChar).all isSlugChar = true := by
      rw [List.all_eq_true]
      intro c hc
      exact List.of_mem_filter hc
    refine ⟨hf, ?_, ?_, ?_, ?_⟩
    · exact stripWhile_all _ isSlugChar _
        (all_replaceRunsGo isSlugChar (by decide) _ hall false)
    · exact stripWhile_noAdjHyphens _ _ (noAdjHyphens_replaceRunsGo _ false)
    · intro hcontra
      have := stripWhile_head (· == '-') _ '-' hcontra
      simp at this
    · intro hcontra
      have := stripWhile_getLast (· == '-') _ '-' hcontra
      simp at this

/-- Witness for C6 on a file whose parse fails. -/
theorem claim_C6_witness :
    ((some (Except.error "unparseable") : Option (Except String YVal)) = none ∨
      (∃ e, (some (Except.error "unparseable") : Option (Except String YVal)) =
        some (.error e)) ∨
      (∃ v, (some (Except.error "unparseable") : Option (Except String YVal)) =
        some (.ok v) ∧ v.truthy = false)) ∧
    load_config (some (.error "unparseable")) trivialPathEnv =
      .ok fully_defaulted_settings :=
  ⟨Or.inr (Or.inl ⟨"unparseable", rfl⟩),
    claim_C6_load_config_defaults (some (.error "unparseable")) trivialPathEnv
      (Or.inr (Or.inl ⟨"unparseable", rfl⟩))⟩

/-- C7: an LLM timeout makes `generate_plan` return (not raise) an error
document that begins with the fixed `# Error` marker and contains the words
`timed out`; feeding that document to the persistence routine produces the
same `.lazyaider/plans/<slug>/<slug>.md` layout as a successful plan (with the
feature description saved alongside). -/
theorem claim_C7_timeout_error_document (model msg feature_description : String) :
    ∃ doc : String,
      generate_plan_llm_call model (.timeout msg) = .inr doc ∧
      (∃ rest : String, doc = "# Error" ++ rest) ∧
      (∃ pre post : String, doc = pre ++ "timed out" ++ post) ∧
      (_process_and_save_plan doc feature_description).plan_dir =
        ".lazyaider/plans/error-generating-plan" ∧
      (_process_and_save_plan doc feature_description).plan_path =
        ".lazyaider/plans/error-generating-plan/error-generating-plan.md" ∧
      (_process_and_save_plan doc feature_description).plan_file_content = doc ∧
      (_process_and_save_plan doc feature_description).feature_desc_path =
        ".lazyaider/plans/error-generating-plan/feature_description.md" ∧
      (_process_and_save_plan doc feature_description).feature_desc_content =
        feature_description := by
  refine ⟨timeout_error_document model msg, rfl, ?_, ?_, ?_, ?_, rfl, ?_, rfl⟩
  · exact ⟨" Generating Plan\n\n" ++
      ("LLM API call timed out (" ++ model ++ "): " ++ msg) ++
      "\n\nThe model took too long to respond. You might try a different model or check the LLM provider status.",
      rfl⟩
  · exact ⟨"# Error Generating Plan\n\nLLM API call ",
      " (" ++ model ++ "): " ++ msg ++
        "\n\nThe model took too long to respond. You might try a different model or check the LLM provider status.",
      rfl⟩
  · rw [process_and_save_timeout_doc]
  · rw [process_and_save_timeout_doc]
  · rw [process_and_save_timeout_doc]

/-- C8: section editing is a byte-range splice frame property — whenever
`extract_section_from_markdown` locates section `N` at `[start, stop)`, the
saved content equals `original[:start] + edited + original[stop:]`, so the
characters before `start` and the characters from `stop` on are unchanged
(they reappear verbatim before position `start` and after position
`start + |edited|`). -/
theorem claim_C8_section_edit_splice_frame (original edited section_text : String)
    (N content_start_pos content_end_pos : Nat)
    (h : extract_section_from_markdown original N =
      some (section_text, content_start_pos, content_end_pos)) :
    section_editor_new_content original edited content_start_pos content_end_pos =
      ⟨original.toList.take content_start_pos ++ edited.toList ++
        original.toList.drop content_end_pos⟩ ∧
    (section_editor_new_content original edited
        content_start_pos content_end_pos).toList.take content_start_pos =
      original.toList.take content_start_pos ∧
    (section_editor_new_content original edited
        content_start_pos content_end_pos).toList.drop
        (content_start_pos + edited.toList.length) =
      original.toList.drop content_end_pos := by
  have hstart : content_start_pos ≤ original.toList.length := by
    unfold extract_section_from_markdown at h
    by_cases hN : N < (headerStarts original.toList).length
    · simp only [hN, if_true, Option.some.injEq, Prod.mk.injEq] at h
      have := headerStarts_getD_lt original.toList N hN
      omega
    · simp only [hN, if_false] at h
      exact absurd h (by simp)
  have ha : (original.toList.take content_start_pos).length = content_start_pos := by
    rw [List.length_take]
    omega
  refine ⟨rfl, ?_, ?_⟩
  · have hs := splice_take (original.toList.take content_start_pos) edited.toList
      (original.toList.drop content_end_pos)
    rw [ha] at hs
    exact hs
  · have hs := splice_drop (original.toList.take content_start_pos) edited.toList
      (original.toList.drop content_end_pos)
    rw [ha] at hs
    exact hs

/-- Witness for C8 on a concrete two-section document, editing section 0. -/
theorem claim_C8_witness :
    extract_section_from_markdown "# T\n\n## A\nbody\n## B\nrest" 0 =
      some ("## A\nbody\n", 5, 15) ∧
    (section_editor_new_content "# T\n\n## A\nbody\n## B\nrest" "## EDITED\nx\n" 5 15 =
      ⟨("# T\n\n## A\nbody\n## B\nrest" : String).toList.take 5 ++
        ("## EDITED\nx\n" : String).toList ++
        ("# T\n\n## A\nbody\n## B\nrest" : String).toList.drop 15⟩ ∧
     (section_editor_new_content "# T\n\n## A\nbody\n## B\nrest"
        "## EDITED\nx\n" 5 15).toList.take 5 =
       ("# T\n\n## A\nbody\n## B\nrest" : String).toList.take 5 ∧
     (section_editor_new_content "# T\n\n## A\nbody\n## B\nrest"
        "## EDITED\nx\n" 5 15).toList.drop
        (5 + ("## EDITED\nx\n" : String).toList.length) =
       ("# T\n\n## A\nbody\n## B\nrest" : String).toList.drop 15) :=
  ⟨rfl, claim_C8_section_edit_splice_frame "# T\n\n## A\nbody\n## B\nrest"
    "## EDITED\nx\n" "## A\nbody\n" 0 5 15 rfl⟩

/-- Witness for C10 at a concrete session, plan and index. -/
theorem claim_C10_witness :
    ("s1" : String) ≠ "" ∧ ("p1" : String) ≠ "" ∧
    (get_session_last_aider_step
        (update_session_last_aider_step {} "s1" "p1" (some 7)).1 "s1" "p1" = some 7 ∧
      get_session_last_aider_step
        (update_session_last_aider_step
          (update_session_last_aider_step {} "s1" "p1" (some 7)).1 "s1" "p1" none).1
        "s1" "p1" = none ∧
      (∀ (st' : Settings) (q : String),
        get_session_last_aider_step st' "" q = none ∧
        get_session_last_aider_step st' q "" = none)) :=
  ⟨by decide, by decide,
    claim_C10_watermark_roundtrip {} "s1" "p1" 7 (by decide) (by decide)⟩

end LazyAider
